import Mathlib

/-!
Verification of the viewport layout and page-rendering coordination engine
of the PDF viewer component library.

The embedding below translates the relevant functions of
`src/components/PDFViewer.tsx` (scroll tracking, programmatic scrolling,
fit-scale computation, render scheduling, mode toggling),
`src/components/PDFViewer/PDFDocument.tsx` (container extent computation)
and `src/components/Toolbar.tsx` (page-number input guard) into Lean.
All pixel quantities are modelled as rationals.
-/

namespace PdfViewer

/-- Intrinsic (unscaled) page dimensions, one entry per page
(`pageDimensions` state in PDFViewer.tsx). -/
structure PageDim where
  width : ℚ
  height : ℚ
deriving DecidableEq, Repr

/-- The three scroll modes of the viewer
(`type ScrollMode = "vertical" | "horizontal" | "horizontal-single"`). -/
inductive ScrollMode where
  | vertical
  | horizontal
  | horizontalSingle
deriving DecidableEq, Repr

/-- `const PAGE_GAP = 40` — standardized gap between pages. -/
def PAGE_GAP : ℚ := 40

/-- `const minZoom = 0.5`. -/
def minZoom : ℚ := 1/2

/-- `const maxZoom = 3.0`. -/
def maxZoom : ℚ := 3

/-- `const padding = 48` inside `calculateFitScale`. -/
def padding : ℚ := 48

/-- The fit modes (`fitMode` state: `"width" | "page" | "fit"`). -/
inductive FitMode where
  | width
  | page
  | fit
deriving DecidableEq, Repr

/-- The measured scroll container (`containerRef.current`); `none` models a
container that is not mounted yet. -/
structure Container where
  clientWidth : ℚ
  clientHeight : ℚ
deriving DecidableEq, Repr

/-- `calculateFitScale` from PDFViewer.tsx lines 90-112: returns 1 when the
container is absent or the current page has no dimensions; otherwise divides
the padded container extent (floored at 1) by the page extent, choosing the
axis per fit mode; fit mode `page` falls into the `default` branch and
returns 1. -/
def calculateFitScale (container : Option Container) (pageDimensions : List PageDim)
    (currentPage : ℕ) (fitMode : FitMode) : ℚ :=
  match container, pageDimensions.get? (currentPage - 1) with
  | some c, some page =>
    let containerWidth := max (c.clientWidth - padding) 1
    let containerHeight := max (c.clientHeight - padding) 1
    let widthScale := containerWidth / page.width
    let heightScale := containerHeight / page.height
    match fitMode with
    | FitMode.width => widthScale
    | FitMode.fit => min widthScale heightScale
    | FitMode.page => 1
  | _, _ => 1

/-- The fit-mode effect (PDFViewer.tsx lines 115-120): the scale actually
stored is `Math.min(Math.max(newScale, minZoom), maxZoom)` of the value
computed by `calculateFitScale`. -/
def fitEffectScale (container : Option Container) (pageDimensions : List PageDim)
    (currentPage : ℕ) (fitMode : FitMode) : ℚ :=
  min (max (calculateFitScale container pageDimensions currentPage fitMode) minZoom) maxZoom

/-- The page-search loop shared by the two continuous branches of
`handleScroll` (PDFViewer.tsx lines 251-278): walk the pages accumulating
scaled extent plus `PAGE_GAP`, and return the 1-based index of the first
page whose accumulated end lies strictly beyond the anchor point, or `none`
when the loop finishes without a hit.  `ext` is the per-page scaled extent
(`height * scale` in vertical mode, `width * scale` in horizontal mode). -/
def findPageLoop (anchor : ℚ) (ext : PageDim → ℚ) :
    List PageDim → ℚ → ℕ → Option ℕ
  | [], _, _ => none
  | d :: rest, acc, i =>
    if anchor < acc + ext d then some (i + 1)
    else findPageLoop anchor ext rest (acc + ext d + PAGE_GAP) (i + 1)

/-- Vertical branch of `handleScroll`: `foundPage` starts at 1 and is set by
the loop when a page's end passes `scrollTop + containerHeight / 3`. -/
def foundPageVertical (dims : List PageDim) (scale scrollTop clientHeight : ℚ) : ℕ :=
  (findPageLoop (scrollTop + clientHeight / 3) (fun d => d.height * scale) dims 0 0).getD 1

/-- Horizontal branch of `handleScroll`, identical except that it projects on
widths and uses `scrollLeft + containerWidth / 3`. -/
def foundPageHorizontal (dims : List PageDim) (scale scrollLeft clientWidth : ℚ) : ℕ :=
  (findPageLoop (scrollLeft + clientWidth / 3) (fun d => d.width * scale) dims 0 0).getD 1

/-- Accumulated extent after `k` pages: sum of (scaled extent + PAGE_GAP)
over the first `k` pages.  This is the value of the loop accumulator of both
`handleScroll` and `scrollToPage` when page `k` (0-based) is examined. -/
def accUpTo (ext : PageDim → ℚ) (dims : List PageDim) (k : ℕ) : ℚ :=
  ((dims.take k).map (fun d => ext d + PAGE_GAP)).sum

/-- `targetPosition` computed by `scrollToPage` (PDFViewer.tsx lines 212-220)
in vertical mode: sum of height·scale + PAGE_GAP of all previous pages. -/
def scrollTargetVertical (dims : List PageDim) (scale : ℚ) (pageNumber : ℕ) : ℚ :=
  ((dims.take (pageNumber - 1)).map (fun d => d.height * scale + PAGE_GAP)).sum

/-- `targetPosition` computed by `scrollToPage` in horizontal mode. -/
def scrollTargetHorizontal (dims : List PageDim) (scale : ℚ) (pageNumber : ℕ) : ℚ :=
  ((dims.take (pageNumber - 1)).map (fun d => d.width * scale + PAGE_GAP)).sum

/-- `totalHeight` computed by `getContainerStyle` in PDFDocument.tsx lines
684-692 (vertical mode): each page contributes its scaled height plus the
gap, except that the last page contributes no gap
(`index < pageDimensions.length - 1 ? pageGap : 0`). -/
def totalExtentVertical (dims : List PageDim) (scale pageGap : ℚ) : ℚ :=
  (dims.enum.map
    (fun p => p.2.height * scale + (if p.1 < dims.length - 1 then pageGap else 0))).sum

/-- The viewer state owned by the controller component: page count of the
loaded document, `currentPage`, the `isScrolling` suppression flag, the
scroll mode, and the commanded scroll offset of the container. -/
structure ViewerState where
  numPages : ℕ
  currentPage : ℕ
  isScrolling : Bool
  mode : ScrollMode
  scrollPos : ℚ
deriving DecidableEq, Repr

/-- `scrollToPage` (PDFViewer.tsx lines 198-236): in single mode just set
`currentPage`; otherwise, when dimensions are loaded, lock the scroll
listener (`setIsScrolling(true)`), command a smooth scroll to the summed
offset of the previous pages, and set `currentPage`.  The 800 ms unlock
timer is modelled as a separate `timerExpire` event. -/
def scrollToPage (dims : List PageDim) (scale : ℚ) (s : ViewerState) (pageNumber : ℕ) :
    ViewerState :=
  if s.mode = ScrollMode.horizontalSingle then
    { s with currentPage := pageNumber }
  else if dims.isEmpty then s
  else
    let target :=
      if s.mode = ScrollMode.vertical then scrollTargetVertical dims scale pageNumber
      else scrollTargetHorizontal dims scale pageNumber
    { s with isScrolling := true, scrollPos := target, currentPage := pageNumber }

/-- `handleScroll` (PDFViewer.tsx lines 239-283) as a state transition on one
observed scroll event carrying the container offset and extent: bail out when
no dimensions are loaded, a programmatic scroll is in flight, or the mode is
single-page; otherwise recompute `foundPage` on the mode's axis and store it
when it differs from `currentPage`. -/
def handleScrollEvent (dims : List PageDim) (scale offset extent : ℚ) (s : ViewerState) :
    ViewerState :=
  if dims.isEmpty ∨ s.isScrolling = true ∨ s.mode = ScrollMode.horizontalSingle then s
  else
    let foundPage :=
      if s.mode = ScrollMode.vertical then foundPageVertical dims scale offset extent
      else foundPageHorizontal dims scale offset extent
    if foundPage ≠ s.currentPage then { s with currentPage := foundPage } else s

/-- Events observed by the controller between renders: a scroll event from
the container, or expiry of the 800 ms suppression timer started by
`scrollToPage`. -/
inductive ViewerEvent where
  | scroll (offset extent : ℚ)
  | timerExpire
deriving DecidableEq, Repr

/-- One controller step on an observed event. -/
def stepEvent (dims : List PageDim) (scale : ℚ) (s : ViewerState) : ViewerEvent → ViewerState
  | ViewerEvent.scroll offset extent => handleScrollEvent dims scale offset extent s
  | ViewerEvent.timerExpire => { s with isScrolling := false }

/-- `handlePageChange` from PDFViewer/PDFViewer.tsx lines 171-174: stores the
requested page unconditionally. -/
def handlePageChange (s : ViewerState) (page : ℕ) : ViewerState :=
  { s with currentPage := page }

/-- The page-number input guard of Toolbar.tsx lines 203-208: forward the
typed page to `onPageChange` only when `1 ≤ page ≤ totalPages`, else do
nothing (no clamping). -/
def pageInputChange (totalPages page : ℕ) : Option ℕ :=
  if 1 ≤ page ∧ page ≤ totalPages then some page else none

/-- Successor in the `modes` cycle of `toggleScrollMode`
(`["vertical", "horizontal", "horizontal-single"]`, index + 1 mod 3). -/
def nextScrollMode : ScrollMode → ScrollMode
  | ScrollMode.vertical => ScrollMode.horizontal
  | ScrollMode.horizontal => ScrollMode.horizontalSingle
  | ScrollMode.horizontalSingle => ScrollMode.vertical

/-- `toggleScrollMode` (PDFViewer.tsx lines 331-340): advance the mode, then
(after a 100 ms timeout, by which time the new mode is in effect) re-align by
calling `scrollToPage(currentPage)`. -/
def toggleScrollMode (dims : List PageDim) (scale : ℚ) (s : ViewerState) : ViewerState :=
  scrollToPage dims scale { s with mode := nextScrollMode s.mode } s.currentPage

/-- The render effect in single-page mode (PDFViewer.tsx lines 176-181):
render the current page, plus the previous page when it exists, plus the next
page when it exists. -/
def pagesToRenderSingle (numPages currentPage : ℕ) : List ℕ :=
  let pages := [currentPage]
  let pages := if 1 < currentPage then pages ++ [currentPage - 1] else pages
  if currentPage < numPages then pages ++ [currentPage + 1] else pages

/-- Three 600×800 pages, the geometry table of the C5 scenario. -/
def demoDims3 : List PageDim := [⟨600, 800⟩, ⟨600, 800⟩, ⟨600, 800⟩]

/-- Two 600×100 pages, used for scroll-tracking counterexamples. -/
def twoPages : List PageDim := [⟨600, 100⟩, ⟨600, 100⟩]

/-- A single 600×800 page. -/
def demoPage : List PageDim := [⟨600, 800⟩]

/-- A single page whose width is 1.5 units. -/
def thinPage : List PageDim := [⟨3/2, 800⟩]

/-- A 3-page viewer state at page 2, vertical mode, idle. -/
def demoState : ViewerState := ⟨3, 2, false, ScrollMode.vertical, 0⟩

/-- Accumulating zero pages gives offset zero. -/
theorem accUpTo_zero (ext : PageDim → ℚ) (dims : List PageDim) : accUpTo ext dims 0 = 0 := by
  simp [accUpTo]

/-- Unfolding one step of the accumulated extent. -/
theorem accUpTo_succ_cons (ext : PageDim → ℚ) (d : PageDim) (rest : List PageDim) (k : ℕ) :
    accUpTo ext (d :: rest) (k + 1) = (ext d + PAGE_GAP) + accUpTo ext rest k := by
  simp [accUpTo, List.take_succ_cons]

/-- The accumulated extent is nonnegative when every page extent is. -/
theorem accUpTo_nonneg (ext : PageDim → ℚ) (dims : List PageDim) (k : ℕ)
    (h : ∀ d ∈ dims, 0 ≤ ext d) : 0 ≤ accUpTo ext dims k := by
  apply List.sum_nonneg
  intro x hx
  obtain ⟨d, hd, rfl⟩ := List.mem_map.mp hx
  have hd' : d ∈ dims := List.mem_of_mem_take hd
  have := h d hd'
  have hg : (0:ℚ) ≤ PAGE_GAP := by norm_num [PAGE_GAP]
  linarith

/-- When the search loop reports a hit, the reported index is strictly above
the starting index and within the scanned range. -/
theorem findPageLoop_some_bounds (anchor : ℚ) (ext : PageDim → ℚ) :
    ∀ (dims : List PageDim) (acc : ℚ) (i j : ℕ),
      findPageLoop anchor ext dims acc i = some j → i + 1 ≤ j ∧ j ≤ i + dims.length := by
  intro dims
  induction dims with
  | nil =>
    intro acc i j h
    simp [findPageLoop] at h
  | cons d rest ih =>
    intro acc i j h
    rw [findPageLoop] at h
    by_cases hc : anchor < acc + ext d
    · rw [if_pos hc] at h
      injection h with h
      subst h
      simp
    · rw [if_neg hc] at h
      have hb := ih _ _ _ h
      refine ⟨by omega, ?_⟩
      have := hb.2
      simp only [List.length_cons]
      omega

/-- When the anchor lies at or beyond the end of every page, the search loop
reports no hit. -/
theorem findPageLoop_none_of_miss (anchor : ℚ) (ext : PageDim → ℚ) :
    ∀ (dims : List PageDim) (acc : ℚ) (i : ℕ),
      (∀ k, (hk : k < dims.length) →
          acc + accUpTo ext dims k + ext (dims.getD k ⟨0, 0⟩) ≤ anchor) →
      findPageLoop anchor ext dims acc i = none := by
  intro dims
  induction dims with
  | nil => intro acc i _; rfl
  | cons d rest ih =>
    intro acc i hmiss
    have h0 := hmiss 0 (by simp)
    rw [accUpTo_zero, List.getD_cons_zero] at h0
    rw [findPageLoop, if_neg (by linarith)]
    apply ih
    intro k hk
    have hs := hmiss (k + 1) (by simpa using Nat.succ_lt_succ hk)
    rw [accUpTo_succ_cons, List.getD_cons_succ] at hs
    linarith

/-- When the anchor has passed the first `k` page ends but lies inside page
`k` (0-based), the search loop reports index `i + k + 1`. -/
theorem findPageLoop_some_of_hit (anchor : ℚ) (ext : PageDim → ℚ) :
    ∀ (dims : List PageDim) (k : ℕ) (acc : ℚ) (i : ℕ),
      k < dims.length →
      (∀ d ∈ dims, 0 ≤ ext d) →
      acc + accUpTo ext dims k ≤ anchor →
      anchor < acc + accUpTo ext dims k + ext (dims.getD k ⟨0, 0⟩) →
      findPageLoop anchor ext dims acc i = some (i + k + 1) := by
  intro dims
  induction dims with
  | nil => intro k acc i hk; simp at hk
  | cons d rest ih =>
    intro k acc i hk hnn hlow hhit
    match k with
    | 0 =>
      rw [accUpTo_zero, List.getD_cons_zero] at hhit
      rw [findPageLoop, if_pos (by linarith)]
    | Nat.succ q =>
      rw [accUpTo_succ_cons, List.getD_cons_succ] at hhit
      rw [accUpTo_succ_cons] at hlow
      have hrest : ∀ d ∈ rest, 0 ≤ ext d := fun x hx => hnn x (List.mem_cons_of_mem _ hx)
      have hq : 0 ≤ accUpTo ext rest q := accUpTo_nonneg ext rest q hrest
      have hgap : (0:ℚ) ≤ PAGE_GAP := by norm_num [PAGE_GAP]
      have hge : acc + ext d ≤ anchor := by linarith
      rw [findPageLoop, if_neg (not_lt.mpr hge)]
      have hres := ih q (acc + ext d + PAGE_GAP) (i + 1) (by simpa using hk) hrest
        (by linarith) (by linarith)
      rw [hres]
      congr 1
      omega

/-- Scroll events observed while `isScrolling` is set leave the state
untouched. -/
theorem foldl_scroll_frozen (dims : List PageDim) (scale : ℚ) :
    ∀ (evs : List ViewerEvent) (s : ViewerState),
      s.isScrolling = true →
      (∀ e ∈ evs, ∃ o x, e = ViewerEvent.scroll o x) →
      evs.foldl (stepEvent dims scale) s = s := by
  intro evs
  induction evs with
  | nil => intro s _ _; rfl
  | cons e rest ih =>
    intro s hs hevs
    obtain ⟨o, x, rfl⟩ := hevs e (List.mem_cons_self _ _)
    have hstep : stepEvent dims scale s (ViewerEvent.scroll o x) = s := by
      simp [stepEvent, handleScrollEvent, hs]
    rw [List.foldl_cons, hstep]
    exact ih s hs (fun e he => hevs e (List.mem_cons_of_mem _ he))

/-- The enumerated gap sum: when the enumeration covers exactly the indices
up to `n`, every page except the last contributes one gap. -/
theorem enumFrom_gap_sum (scale g : ℚ) :
    ∀ (dims : List PageDim) (k n : ℕ), k + dims.length = n →
      ((List.enumFrom k dims).map
        (fun p => p.2.height * scale + (if p.1 < n - 1 then g else 0))).sum =
      (dims.map (fun d => d.height * scale)).sum + ((dims.length - 1 : ℕ) : ℚ) * g := by
  intro dims
  induction dims with
  | nil => intro k n _; simp
  | cons d rest ih =>
    intro k n hn
    match rest with
    | [] =>
      have hk : ¬ (k < n - 1) := by simp at hn; omega
      simp [List.enumFrom, hk]
    | r :: rs =>
      have hk : k < n - 1 := by simp at hn; omega
      have hrec := ih (k + 1) n (by simp at hn ⊢; omega)
      rw [List.enumFrom, List.map_cons, List.sum_cons, hrec, if_pos hk]
      simp only [List.length_cons, List.map_cons, List.sum_cons, Nat.add_sub_cancel]
      push_cast
      ring

/-- The defaulted loop result is always a valid 1-based page index. -/
theorem foundPage_getD_bounds (anchor : ℚ) (ext : PageDim → ℚ) (dims : List PageDim)
    (hne : dims ≠ []) :
    1 ≤ (findPageLoop anchor ext dims 0 0).getD 1 ∧
      (findPageLoop anchor ext dims 0 0).getD 1 ≤ dims.length := by
  have hlen : 1 ≤ dims.length := List.length_pos.mpr hne
  cases hres : findPageLoop anchor ext dims 0 0 with
  | none => simpa using hlen
  | some j =>
    have hb := findPageLoop_some_bounds anchor ext dims 0 0 j hres
    simpa using hb

/-- C10: for every scroll offset (negative or arbitrarily large included) and
every non-empty geometry table, the page index computed by the scroll
observer lies in `[1, pageCount]` on both continuous axes, so scroll events
can never drive `currentPage` out of range. -/
theorem scroll_observer_page_in_range (dims : List PageDim) (scale offset extent : ℚ)
    (hne : dims ≠ []) :
    (1 ≤ foundPageVertical dims scale offset extent ∧
      foundPageVertical dims scale offset extent ≤ dims.length) ∧
    (1 ≤ foundPageHorizontal dims scale offset extent ∧
      foundPageHorizontal dims scale offset extent ≤ dims.length) :=
  ⟨foundPage_getD_bounds _ _ dims hne, foundPage_getD_bounds _ _ dims hne⟩

/-- Witness for C10 at a concrete geometry table and a negative offset. -/
theorem scroll_observer_page_in_range_witness :
    demoDims3 ≠ [] ∧
    ((1 ≤ foundPageVertical demoDims3 1 (-500) 50 ∧
      foundPageVertical demoDims3 1 (-500) 50 ≤ demoDims3.length) ∧
     (1 ≤ foundPageHorizontal demoDims3 1 (-500) 50 ∧
      foundPageHorizontal demoDims3 1 (-500) 50 ≤ demoDims3.length)) :=
  ⟨by simp [demoDims3],
   scroll_observer_page_in_range demoDims3 1 (-500) 50 (by simp [demoDims3])⟩

/-- C1 counterexample: two pages of scaled height 100 with gap 40; at scroll
offset 300 with viewport extent 30 the anchor 310 lies past the end of every
page (page ends are 100 and 240), yet `handleScroll` computes page 1, not the
last page index 2. -/
theorem pageAt_miss_counterexample :
    (∀ k, (hk : k < twoPages.length) →
      accUpTo (fun d => d.height * 1) twoPages k + (twoPages.getD k ⟨0, 0⟩).height * 1
        ≤ 300 + 30 / 3) ∧
    foundPageVertical twoPages 1 300 30 = 1 ∧
    twoPages.length = 2 ∧ (1 : ℕ) ≠ 2 := by
  refine ⟨?_, ?_, by simp [twoPages], by decide⟩
  · intro k hk
    simp only [twoPages, List.length_cons, List.length_nil] at hk
    interval_cases k <;> norm_num [accUpTo, twoPages, PAGE_GAP, List.getD]
  · norm_num [foundPageVertical, findPageLoop, twoPages, PAGE_GAP]

/-- C1 (amended): for every non-empty geometry table in a continuous mode,
if the anchor point `scrollOffset + viewportExtent/3` lies at or past the end
of every page, the scroll tracker returns the FIRST page index 1 (the
initializer of `foundPage`), not the last page index. -/
theorem pageAt_miss_returns_first (dims : List PageDim) (scale offset extent : ℚ)
    (hne : dims ≠ []) :
    ((∀ k, (hk : k < dims.length) →
        accUpTo (fun d => d.height * scale) dims k + (dims.getD k ⟨0, 0⟩).height * scale
          ≤ offset + extent / 3) →
      foundPageVertical dims scale offset extent = 1) ∧
    ((∀ k, (hk : k < dims.length) →
        accUpTo (fun d => d.width * scale) dims k + (dims.getD k ⟨0, 0⟩).width * scale
          ≤ offset + extent / 3) →
      foundPageHorizontal dims scale offset extent = 1) := by
  constructor <;> intro h
  · unfold foundPageVertical
    rw [findPageLoop_none_of_miss _ _ dims 0 0 (fun k hk => by simpa using h k hk)]
    rfl
  · unfold foundPageHorizontal
    rw [findPageLoop_none_of_miss _ _ dims 0 0 (fun k hk => by simpa using h k hk)]
    rfl

/-- Witness for the amended C1 at the concrete two-page table. -/
theorem pageAt_miss_returns_first_witness :
    twoPages ≠ [] ∧ foundPageVertical twoPages 1 300 30 = 1 :=
  ⟨by simp [twoPages],
   (pageAt_miss_returns_first twoPages 1 300 30 (by simp [twoPages])).1
     (by
       intro k hk
       simp only [twoPages, List.length_cons, List.length_nil] at hk
       interval_cases k <;> norm_num [accUpTo, twoPages, PAGE_GAP, List.getD])⟩

/-- C3 counterexample: the round-trip fails for an arbitrary positive
viewport extent: with two pages of scaled height 100, page P = 1, ε = 0 and
extent 600 (> 0), re-deriving the page from the navigation offset gives
page 2, not 1, because the one-third anchor 200 lands beyond page 1. -/
theorem roundtrip_counterexample :
    (0:ℚ) ≤ 0 ∧ (0:ℚ) < 600 ∧ (1:ℕ) ≤ 1 ∧ 1 ≤ twoPages.length ∧
    foundPageVertical twoPages 1 (scrollTargetVertical twoPages 1 1 + 0) 600 = 2 ∧
    (2 : ℕ) ≠ 1 := by
  refine ⟨le_refl 0, by norm_num, le_refl 1, by simp [twoPages], ?_, by decide⟩
  norm_num [foundPageVertical, findPageLoop, twoPages, PAGE_GAP, scrollTargetVertical]

/-- C3 (amended): the round-trip holds for every page index P of a loaded
document in a continuous mode whenever the anchor shift ε + extent/3 is
smaller than page P's scaled extent on the scroll axis: computing the target
offset for P and re-deriving the page from that offset plus ε yields P. -/
theorem roundtrip_page_offset (dims : List PageDim) (scale eps extent : ℚ) (P : ℕ)
    (h1 : 1 ≤ P) (h2 : P ≤ dims.length) (hs : 0 ≤ scale) (heps : 0 ≤ eps)
    (hext : 0 < extent) :
    ((∀ d ∈ dims, 0 ≤ d.height) →
      eps + extent / 3 < (dims.getD (P - 1) ⟨0, 0⟩).height * scale →
      foundPageVertical dims scale (scrollTargetVertical dims scale P + eps) extent = P) ∧
    ((∀ d ∈ dims, 0 ≤ d.width) →
      eps + extent / 3 < (dims.getD (P - 1) ⟨0, 0⟩).width * scale →
      foundPageHorizontal dims scale (scrollTargetHorizontal dims scale P + eps) extent = P) := by
  have hdiv : 0 < extent / 3 := by positivity
  constructor
  · intro hh hsmall
    have hnn : ∀ d ∈ dims, 0 ≤ (fun d => d.height * scale) d :=
      fun d hd => mul_nonneg (hh d hd) hs
    have hT : scrollTargetVertical dims scale P =
        accUpTo (fun d => d.height * scale) dims (P - 1) := rfl
    unfold foundPageVertical
    rw [findPageLoop_some_of_hit _ _ dims (P - 1) 0 0 (by omega) hnn
      (by rw [hT] at *; linarith) (by simp only [zero_add]; rw [hT]; linarith)]
    simp only [Option.getD_some]
    omega
  · intro hw hsmall
    have hnn : ∀ d ∈ dims, 0 ≤ (fun d => d.width * scale) d :=
      fun d hd => mul_nonneg (hw d hd) hs
    have hT : scrollTargetHorizontal dims scale P =
        accUpTo (fun d => d.width * scale) dims (P - 1) := rfl
    unfold foundPageHorizontal
    rw [findPageLoop_some_of_hit _ _ dims (P - 1) 0 0 (by omega) hnn
      (by rw [hT] at *; linarith) (by simp only [zero_add]; rw [hT]; linarith)]
    simp only [Option.getD_some]
    omega

/-- Witness for the amended C3: navigating to page 2 of the two-page table
and re-deriving with ε = 0 and extent 30 yields page 2 again. -/
theorem roundtrip_page_offset_witness :
    (1 ≤ 2 ∧ 2 ≤ twoPages.length ∧ (0:ℚ) ≤ 1 ∧ (0:ℚ) ≤ 0 ∧ (0:ℚ) < 30) ∧
    foundPageVertical twoPages 1 (scrollTargetVertical twoPages 1 2 + 0) 30 = 2 :=
  ⟨⟨by decide, by simp [twoPages], by norm_num, le_refl 0, by norm_num⟩,
   (roundtrip_page_offset twoPages 1 0 30 2 (by decide) (by simp [twoPages])
       (by norm_num) (le_refl 0) (by norm_num)).1
     (by
       intro d hd
       simp only [twoPages, List.mem_cons, List.not_mem_nil, or_false] at hd
       rcases hd with rfl | rfl <;> norm_num)
     (by norm_num [twoPages, List.getD])⟩

/-- C5: in ContinuousVertical mode each page's offset is the running sum of
prior pages' (height·scale + gap): offset of page 1 is 0 (no gap before the
first page), each successor adds the previous page's scaled height plus the
gap, the container's total height adds the gap only between pages (n − 1
gaps, none after the last page), and the 3×(600×800), gap 40, scale 1
scenario yields offsets [0, 840, 1680]. -/
theorem layout_offsets_vertical (dims : List PageDim) (scale g : ℚ) (q : ℕ)
    (hq : q < dims.length) :
    scrollTargetVertical demoDims3 1 1 = 0 ∧
    scrollTargetVertical demoDims3 1 2 = 840 ∧
    scrollTargetVertical demoDims3 1 3 = 1680 ∧
    scrollTargetVertical dims scale 1 = 0 ∧
    scrollTargetVertical dims scale (q + 2) =
      scrollTargetVertical dims scale (q + 1) +
        ((dims.getD q ⟨0, 0⟩).height * scale + PAGE_GAP) ∧
    totalExtentVertical dims scale g =
      (dims.map (fun d => d.height * scale)).sum + ((dims.length - 1 : ℕ) : ℚ) * g := by
  refine ⟨?_, ?_, ?_, ?_, ?_, ?_⟩
  · norm_num [scrollTargetVertical, demoDims3, PAGE_GAP]
  · norm_num [scrollTargetVertical, demoDims3, PAGE_GAP]
  · norm_num [scrollTargetVertical, demoDims3, PAGE_GAP]
  · simp [scrollTargetVertical]
  · have hsome : dims[q]? = some (dims.getD q ⟨0, 0⟩) := by
      rw [List.getElem?_eq_getElem hq, List.getD_eq_getElem _ _ hq]
    simp only [scrollTargetVertical, Nat.add_sub_cancel,
      show ∀ m : ℕ, m + 2 - 1 = m + 1 from fun m => rfl]
    rw [List.take_succ, hsome]
    simp [List.sum_append]
  · unfold totalExtentVertical
    exact enumFrom_gap_sum scale g dims 0 dims.length (by simp)

/-- Witness for C5 at the 3-page scenario table. -/
theorem layout_offsets_vertical_witness :
    0 < demoDims3.length ∧
    (scrollTargetVertical demoDims3 1 1 = 0 ∧
     scrollTargetVertical demoDims3 1 2 = 840 ∧
     scrollTargetVertical demoDims3 1 3 = 1680 ∧
     scrollTargetVertical demoDims3 1 1 = 0 ∧
     scrollTargetVertical demoDims3 1 (0 + 2) =
       scrollTargetVertical demoDims3 1 (0 + 1) +
         ((demoDims3.getD 0 ⟨0, 0⟩).height * 1 + PAGE_GAP) ∧
     totalExtentVertical demoDims3 1 40 =
       (demoDims3.map (fun d => d.height * 1)).sum + ((demoDims3.length - 1 : ℕ) : ℚ) * 40) :=
  ⟨by simp [demoDims3],
   layout_offsets_vertical demoDims3 1 40 0 (by simp [demoDims3])⟩

/-- C8: in single-page mode the pages selected for rasterization are exactly
the current page and its existing immediate neighbors:
{c−1, c, c+1} ∩ [1, n]. -/
theorem single_mode_raster_set (n c : ℕ) (h1 : 1 ≤ c) (h2 : c ≤ n) (k : ℕ) :
    k ∈ pagesToRenderSingle n c ↔
      (1 ≤ k ∧ k ≤ n ∧ (k = c - 1 ∨ k = c ∨ k = c + 1)) := by
  simp only [pagesToRenderSingle]
  by_cases hc1 : 1 < c <;> by_cases hc2 : c < n <;>
    simp only [hc1, hc2, if_true, if_false, List.mem_append, List.mem_singleton,
      List.mem_cons, List.not_mem_nil, or_false, if_pos, if_neg] <;>
    omega

/-- Witness for C8: currentPage 5 of 10 includes page 4. -/
theorem single_mode_raster_set_witness :
    (1 ≤ 5 ∧ 5 ≤ 10) ∧
    (4 ∈ pagesToRenderSingle 10 5 ↔
      (1 ≤ 4 ∧ 4 ≤ 10 ∧ (4 = 5 - 1 ∨ 4 = 5 ∨ 4 = 5 + 1))) :=
  ⟨⟨by decide, by decide⟩, single_mode_raster_set 10 5 (by decide) (by decide) 4⟩

/-- C9: switching the layout mode (toggleScrollMode, which advances the mode
and then re-aligns via scrollToPage(currentPage)) changes neither the page
count nor the current page. -/
theorem mode_switch_preserves_page (dims : List PageDim) (scale : ℚ) (s : ViewerState) :
    (toggleScrollMode dims scale s).currentPage = s.currentPage ∧
    (toggleScrollMode dims scale s).numPages = s.numPages := by
  unfold toggleScrollMode scrollToPage
  split_ifs <;> simp

/-- C2 counterexample: with a loaded 3-page document, requesting page 0
through `scrollToPage` stores `currentPage = 0`, outside `[1, 3]` — no
clamping happens. -/
theorem navigate_clamp_counterexample :
    (scrollToPage demoDims3 1 demoState 0).currentPage = 0 ∧
    demoState.numPages = 3 ∧
    ¬ 1 ≤ (scrollToPage demoDims3 1 demoState 0).currentPage := by
  have h : (scrollToPage demoDims3 1 demoState 0).currentPage = 0 := by
    simp only [scrollToPage, demoState]
    rw [if_neg (by decide), if_neg (by simp [demoDims3])]
  exact ⟨h, rfl, by rw [h]; decide⟩

/-- C2 (amended): navigation performs no clamping — `scrollToPage` (with
dimensions loaded) and `handlePageChange` store the requested page verbatim;
range protection exists only at the call site: the toolbar page-number input
forwards a typed page exactly when it already lies in `[1, totalPages]`. -/
theorem navigate_no_clamp (dims : List PageDim) (scale : ℚ) (s : ViewerState)
    (p total q : ℕ) (hne : dims ≠ [])
    (hq : pageInputChange total p = some q) :
    (scrollToPage dims scale s p).currentPage = p ∧
    (handlePageChange s p).currentPage = p ∧
    1 ≤ q ∧ q ≤ total := by
  have hempty : dims.isEmpty = false := by
    cases dims with
    | nil => exact absurd rfl hne
    | cons a l => rfl
  have hg : 1 ≤ q ∧ q ≤ total := by
    unfold pageInputChange at hq
    split_ifs at hq with hcond
    injection hq with hq
    subst hq
    exact hcond
  refine ⟨?_, rfl, hg.1, hg.2⟩
  unfold scrollToPage
  by_cases hm : s.mode = ScrollMode.horizontalSingle
  · rw [if_pos hm]
  · rw [if_neg hm, if_neg (by simp [hempty])]

/-- Witness for the amended C2 at page 2 of the 3-page table. -/
theorem navigate_no_clamp_witness :
    demoDims3 ≠ [] ∧ pageInputChange 3 2 = some 2 ∧
    ((scrollToPage demoDims3 1 demoState 2).currentPage = 2 ∧
     (handlePageChange demoState 2).currentPage = 2 ∧
     1 ≤ 2 ∧ 2 ≤ 3) :=
  ⟨by simp [demoDims3], by decide,
   navigate_no_clamp demoDims3 1 demoState 2 3 2 (by simp [demoDims3]) (by decide)⟩

/-- C4: after `scrollToPage` enters the programmatic-scroll state
(isScrolling = true), any sequence of scroll events observed before the
800 ms timer expiry leaves the whole state — in particular `currentPage` —
unchanged; once the timer expires, the next observed scroll event updates
`currentPage` through the forward mapping (`foundPageVertical` in vertical
mode). -/
theorem feedback_suppression (dims : List PageDim) (scale : ℚ) (s : ViewerState) (p : ℕ)
    (hmode : s.mode = ScrollMode.vertical) (hne : dims ≠ [])
    (evs : List ViewerEvent) (hevs : ∀ e ∈ evs, ∃ o x, e = ViewerEvent.scroll o x)
    (off ext : ℚ) :
    (scrollToPage dims scale s p).isScrolling = true ∧
    (scrollToPage dims scale s p).currentPage = p ∧
    evs.foldl (stepEvent dims scale) (scrollToPage dims scale s p) =
      scrollToPage dims scale s p ∧
    (stepEvent dims scale
        (stepEvent dims scale (evs.foldl (stepEvent dims scale) (scrollToPage dims scale s p))
          ViewerEvent.timerExpire)
        (ViewerEvent.scroll off ext)).currentPage =
      foundPageVertical dims scale off ext := by
  have hempty : dims.isEmpty = false := by
    cases dims with
    | nil => exact absurd rfl hne
    | cons a l => rfl
  have hnotsingle : ¬ s.mode = ScrollMode.horizontalSingle := by
    rw [hmode]
    intro hcontra
    cases hcontra
  have hs1 : scrollToPage dims scale s p =
      { s with isScrolling := true,
               scrollPos := scrollTargetVertical dims scale p,
               currentPage := p } := by
    unfold scrollToPage
    rw [if_neg hnotsingle, if_neg (by simp [hempty]), if_pos hmode]
  have hfold : evs.foldl (stepEvent dims scale) (scrollToPage dims scale s p) =
      scrollToPage dims scale s p :=
    foldl_scroll_frozen dims scale evs _ (by rw [hs1]) hevs
  refine ⟨by rw [hs1], by rw [hs1], hfold, ?_⟩
  rw [hfold, hs1]
  simp only [stepEvent, handleScrollEvent, hempty, hmode]
  norm_num
  by_cases hdiff : foundPageVertical dims scale off ext = p <;> simp [hdiff]

/-- Witness for C4: navigate to page 3, observe a scroll during suppression,
let the timer expire, then observe a manual scroll event. -/
theorem feedback_suppression_witness :
    (demoState.mode = ScrollMode.vertical ∧ demoDims3 ≠ [] ∧
     (∀ e ∈ [ViewerEvent.scroll 50 30], ∃ o x, e = ViewerEvent.scroll o x)) ∧
    ((scrollToPage demoDims3 1 demoState 3).isScrolling = true ∧
     (scrollToPage demoDims3 1 demoState 3).currentPage = 3 ∧
     [ViewerEvent.scroll 50 30].foldl (stepEvent demoDims3 1)
         (scrollToPage demoDims3 1 demoState 3) =
       scrollToPage demoDims3 1 demoState 3 ∧
     (stepEvent demoDims3 1
         (stepEvent demoDims3 1
           ([ViewerEvent.scroll 50 30].foldl (stepEvent demoDims3 1)
             (scrollToPage demoDims3 1 demoState 3))
           ViewerEvent.timerExpire)
         (ViewerEvent.scroll 0 30)).currentPage =
       foundPageVertical demoDims3 1 0 30) :=
  ⟨⟨rfl, by simp [demoDims3], by
      intro e he
      simp only [List.mem_singleton] at he
      exact ⟨50, 30, he⟩⟩,
   feedback_suppression demoDims3 1 demoState 3 rfl (by simp [demoDims3])
     [ViewerEvent.scroll 50 30]
     (by
       intro e he
       simp only [List.mem_singleton] at he
       exact ⟨50, 30, he⟩)
     0 30⟩

/-- C6 counterexample: with viewport width 10 (positive) and page width 1.5,
the code floors the padded width at 1 and resolves scale 2/3 (clamped value
2/3), while the claimed formula (10 − 48)/1.5 clamps to 1/2; the two resolved
scales differ. -/
theorem fit_width_counterexample :
    calculateFitScale (some ⟨10, 800⟩) thinPage 1 FitMode.width = 2/3 ∧
    fitEffectScale (some ⟨10, 800⟩) thinPage 1 FitMode.width = 2/3 ∧
    min (max (((10:ℚ) - 48) / (3/2)) minZoom) maxZoom = 1/2 ∧
    ((2:ℚ)/3) ≠ 1/2 := by
  have h1 : calculateFitScale (some ⟨10, 800⟩) thinPage 1 FitMode.width = 2/3 := by
    unfold calculateFitScale
    norm_num [thinPage, padding]
  refine ⟨h1, ?_, by norm_num [minZoom, maxZoom], by norm_num⟩
  unfold fitEffectScale
  rw [h1]
  norm_num [minZoom, maxZoom]

/-- C6 (amended): for the FitWidth policy the resolved scale equals
`max(viewportWidth − padding, 1) / pageWidth`, then clamped; whenever
`viewportWidth − padding ≥ 1` this coincides with the claimed
`(viewportWidth − padding) / pageWidth` (before and after clamping). -/
theorem fit_width_scale (vw vh w h : ℚ) (dims : List PageDim) (cp : ℕ)
    (hget : dims.get? (cp - 1) = some ⟨w, h⟩) (hvw : 1 ≤ vw - padding) :
    calculateFitScale (some ⟨vw, vh⟩) dims cp FitMode.width = (vw - padding) / w ∧
    fitEffectScale (some ⟨vw, vh⟩) dims cp FitMode.width =
      min (max ((vw - padding) / w) minZoom) maxZoom := by
  have h1 : calculateFitScale (some ⟨vw, vh⟩) dims cp FitMode.width = (vw - padding) / w := by
    unfold calculateFitScale
    rw [hget]
    show max (vw - padding) 1 / w = (vw - padding) / w
    rw [max_eq_left hvw]
  exact ⟨h1, by unfold fitEffectScale; rw [h1]⟩

/-- Witness for the amended C6 at the 1000 × 800 viewport scenario:
the pre-clamp scale is (1000 − 48)/600 = 952/600. -/
theorem fit_width_scale_witness :
    (1 ≤ (1000:ℚ) - padding) ∧
    calculateFitScale (some ⟨1000, 800⟩) demoPage 1 FitMode.width = (1000 - padding) / 600 ∧
    ((1000:ℚ) - padding) / 600 = 952/600 :=
  ⟨by norm_num [padding],
   (fit_width_scale 1000 800 600 800 demoPage 1 rfl (by norm_num [padding])).1,
   by norm_num [padding]⟩

/-- C7 counterexample: a mounted viewport with zero extent does not make the
resolver return 1.0 — with a 600-wide page and FitWidth it returns
max(0 − 48, 1)/600 = 1/600, and the effect clamps it to 1/2. -/
theorem fit_zero_extent_counterexample :
    calculateFitScale (some ⟨0, 0⟩) demoPage 1 FitMode.width = 1/600 ∧
    fitEffectScale (some ⟨0, 0⟩) demoPage 1 FitMode.width = 1/2 ∧
    ((1:ℚ)/600) ≠ 1 ∧ ((1:ℚ)/2) ≠ 1 := by
  have h1 : calculateFitScale (some ⟨0, 0⟩) demoPage 1 FitMode.width = 1/600 := by
    unfold calculateFitScale
    norm_num [demoPage, padding]
  refine ⟨h1, ?_, by norm_num, by norm_num⟩
  unfold fitEffectScale
  rw [h1]
  norm_num [minZoom, maxZoom]

/-- C7 (amended): for every fit policy the resolver's result is strictly
positive (and exact, hence finite) whenever every page's dimensions are
positive, as is the clamped effect scale; the exact-1.0 fallback fires when
the container is not mounted (and when the page geometry is missing), not on
a mounted zero-extent viewport. -/
theorem fit_scale_positive (container : Option Container) (dims : List PageDim)
    (cp : ℕ) (fm : FitMode)
    (hdims : ∀ d ∈ dims, 0 < d.width ∧ 0 < d.height) :
    0 < calculateFitScale container dims cp fm ∧
    0 < fitEffectScale container dims cp fm ∧
    calculateFitScale none dims cp fm = 1 := by
  have hnone : ∀ (l : List PageDim) (n : ℕ) (f : FitMode),
      calculateFitScale none l n f = 1 := by
    intro l n f
    unfold calculateFitScale
    cases l.get? (n - 1) <;> rfl
  have hpos : 0 < calculateFitScale container dims cp fm := by
    unfold calculateFitScale
    cases container with
    | none =>
      cases dims.get? (cp - 1) <;> norm_num
    | some c =>
      cases hget : dims.get? (cp - 1) with
      | none => norm_num
      | some pg =>
        have hmem : pg ∈ dims := List.get?_mem hget
        have hw := (hdims pg hmem).1
        have hh := (hdims pg hmem).2
        have hcw : (0:ℚ) < max (c.clientWidth - padding) 1 :=
          lt_of_lt_of_le one_pos (le_max_right _ _)
        have hch : (0:ℚ) < max (c.clientHeight - padding) 1 :=
          lt_of_lt_of_le one_pos (le_max_right _ _)
        cases fm with
        | width => exact div_pos hcw hw
        | fit => exact lt_min (div_pos hcw hw) (div_pos hch hh)
        | page => norm_num
  refine ⟨hpos, ?_, hnone dims cp fm⟩
  unfold fitEffectScale
  apply lt_min
  · exact lt_of_lt_of_le (by norm_num [minZoom]) (le_max_right _ _)
  · norm_num [maxZoom]

/-- Witness for the amended C7 on a mounted 100 × 100 viewport. -/
theorem fit_scale_positive_witness :
    (∀ d ∈ demoPage, 0 < d.width ∧ 0 < d.height) ∧
    (0 < calculateFitScale (some ⟨100, 100⟩) demoPage 1 FitMode.width ∧
     0 < fitEffectScale (some ⟨100, 100⟩) demoPage 1 FitMode.width ∧
     calculateFitScale none demoPage 1 FitMode.width = 1) :=
  ⟨by
    intro d hd
    simp only [demoPage, List.mem_singleton] at hd
    subst hd
    norm_num,
   fit_scale_positive (some ⟨100, 100⟩) demoPage 1 FitMode.width
     (by
       intro d hd
       simp only [demoPage, List.mem_singleton] at hd
       subst hd
       norm_num)⟩

end PdfViewer
